import Mathlib

/-!
A shallow embedding of `src/clients/APIClient.go` from the `microapp`
repository, together with theorems settling the specification claims about
the HTTP client.

The Go file implements a stateless REST/JSON client: a generic request
routine that builds a request (URL, headers, optional JSON body), executes
it, classifies the status code, and decodes the JSON response either into a
caller-supplied destination or a generic JSON value, plus four thin
shape-asserting wrappers (DoGet, DoGetList, DoPost, DoDelete).

The embedding keeps the Go structure: each Go function becomes a Lean
function over an explicit environment describing the outcome of the
external collaborators (correlation-ID capability, request construction,
transport, JSON decoder).
-/

namespace Microapp

/-- A generic JSON value, as produced by Go `json.Decode` into an untyped
destination: Go yields `map` for objects, slices for arrays, and scalars
otherwise.  The Go runtime type assertions of the wrappers become pattern
matches on this type. -/
inductive JSONValue where
  | null
  | bool (b : Bool)
  | num (n : Int)
  | str (s : String)
  | arr (elems : List JSONValue)
  | obj (fields : List (String × JSONValue))

/-- Whether a decoded JSON value is an object, i.e. whether the Go type
assertion to a string-keyed map succeeds on it. -/
def JSONValue.isObj : JSONValue → Bool
  | .obj _ => true
  | _ => false

/-- A request payload (Go `map` from string to arbitrary values).  Go
`json.Marshal` on such a map can fail when a value is not
JSON-serializable (a channel, a function, a NaN float, ...); the two
constructors record which case holds. -/
inductive Payload where
  | json (fields : List (String × JSONValue))
  | unmarshalable

/-- The outcome of Go `json.Marshal` on a payload: the serialized fields on
success, `none` on a serialization failure. -/
def marshalPayload : Payload → Option (List (String × JSONValue))
  | .json fields => some fields
  | .unmarshalable => none

/-- Whether the optional payload survives the serialization step: a `nil`
payload is never serialized, a present payload must marshal. -/
def marshalOk : Option Payload → Bool
  | none => true
  | some p => (marshalPayload p).isSome

/-- The underlying cause wrapped into a structured API error
(the `fmt.Errorf` argument of each `NewAPICallError` call site). -/
inductive ErrCause where
  | marshalFailure
  | requestCreationFailure
  | transportFailure
  | nonSuccessStatus (code : Int)
  | decodeFailure

/-- The structured API error built by `microappError.NewAPICallError`:
request URL, optional HTTP status code, optional raw response body text,
and an underlying cause. -/
structure APICallError where
  url : String
  statusCode : Option Int
  responseBody : Option String
  cause : ErrCause

/-- An error returned by the public wrappers: either a structured API error
propagated from the request routine, or a plain error from
`errors.New` used for the wrappers' shape assertions. -/
inductive ClientError where
  | api (e : APICallError)
  | generic (msg : String)

/-- The outbound HTTP request as constructed by the Go code: method, the
absolute URL, the headers set in lines 41-50 / 91-100, and the serialized
body when a payload was supplied. -/
structure Request where
  method : String
  url : String
  authorization : Option String
  xClient : String
  xCorrelationID : String
  contentType : String
  body : Option (List (String × JSONValue))

/-- An HTTP response delivered by the transport.  `bodyText` is the byte
content of the body stream and `readErr` tells whether `ioutil.ReadAll` on
the stream fails (in which case `bodyText` is the partial read).  `parse`
is the outcome of Go `json.Decode` of a non-empty body into a generic
value (`none` on malformed JSON), and `typedParse` the outcome of decoding
a non-empty body into the caller-supplied typed destination. -/
structure HTTPResponse where
  statusCode : Int
  bodyText : String
  readErr : Bool
  parse : Option JSONValue
  typedParse : Bool

/-- The outcome of `HTTPClient.Do`: a transport-level error, or a
response. -/
inductive TransportResult where
  | doErr
  | response (resp : HTTPResponse)

/-- The per-call environment: the correlation identifier supplied by the
execution context, whether `http.NewRequest` fails, and the transport
outcome. -/
structure Env where
  correlationID : String
  newRequestErr : Bool
  transport : TransportResult

/-- The APIClient struct: client identity name and base URL.  The
transport handle is modelled by the per-call `Env` instead of a stored
handle. -/
structure APIClient where
  AppName : String
  BaseURL : String

/-- Go `strings.HasPrefix s pre`: whether `pre` is a prefix of `s`.
Modelled character-wise, which on valid UTF-8 strings coincides with Go's
byte-wise check. -/
def strStartsWith (s pre : String) : Bool := pre.data.isPrefixOf s.data

/-- The `Authorization` header value chosen in lines 41-47 / 91-97 of the
Go source: absent for an empty token, the token verbatim when it already
starts with the literal prefix `Bearer`, and otherwise the token with
`Bearer ` prepended. -/
def authHeader (rawToken : String) : Option String :=
  if rawToken ≠ "" then
    if strStartsWith rawToken "Bearer" then some rawToken
    else some ("Bearer " ++ rawToken)
  else none

/-- The response body string attached to an HTTP-failure error, as computed
by lines 58-62 / 108-112 of the Go source:

`responseBodyString := ""`
`if responseBodyBytes, err := ioutil.ReadAll(response.Body); err != nil`
`  responseBodyString = string(responseBodyBytes)`

Note the condition: the read bytes are kept only when the read FAILS;
a successfully read body leaves the string empty. -/
def failureBodyString (resp : HTTPResponse) : String :=
  if resp.readErr then resp.bodyText else ""

/-- The outcome of Go `json.NewDecoder(body).Decode` into a generic
destination: on an empty stream `Decode` returns `io.EOF`, hence failure;
on a non-empty stream the outcome is the decoder outcome carried by the
response. -/
def decodeBody (resp : HTTPResponse) : Option JSONValue :=
  if resp.bodyText = "" then none else resp.parse

/-- The outcome of Go `json.NewDecoder(body).Decode(out)` into the typed
destination: failure (`io.EOF`) on an empty stream, otherwise the typed
decoder outcome carried by the response. -/
def typedDecodeOk (resp : HTTPResponse) : Bool :=
  if resp.bodyText = "" then false else resp.typedParse

/-- The request constructed in lines 36-50 / 86-100 once the body has been
serialized: target method and absolute URL, `Authorization` per the bearer
rule, `X-Client` set to the client name, `X-Correlation-ID` from the
execution context, and `Content-Type: application/json` always. -/
def builtRequest (c : APIClient) (env : Env) (url method rawToken : String)
    (body : Option (List (String × JSONValue))) : Request :=
  { method := method
    url := c.BaseURL ++ url
    authorization := authHeader rawToken
    xClient := c.AppName
    xCorrelationID := env.correlationID
    contentType := "application/json"
    body := body }

/-- The observable outcome of one invocation of the generic request
routine: whether a request value was constructed, the request passed to
`HTTPClient.Do` if the call reached the transport, and the returned
value-or-error. -/
structure DoRequestResult where
  constructed : Bool
  sentRequest : Option Request
  result : Except APICallError JSONValue

/-- The body-serialization step shared by lines 27-34 and 77-84 of the Go
source (the two functions duplicate it verbatim): a `nil` payload gives no
body; a present payload is marshalled, and a marshal failure returns a
structured error with the URL set and status and body absent. -/
def serializeBody (payload : Option Payload) (apiURL : String) :
    Except APICallError (Option (List (String × JSONValue))) :=
  match payload with
  | none => .ok none
  | some p =>
    match marshalPayload p with
    | none => .error ⟨apiURL, none, none, .marshalFailure⟩
    | some bytePayload => .ok (some bytePayload)

/-- Embedding of `doRequest` (APIClient.go lines 75-123): build the
absolute URL, serialize the payload if present (failure returns a
structured error before any request is constructed), construct the request
with its headers, execute it, classify a status code strictly greater than
300 as failure (attaching the best-effort body string), and otherwise
decode the body into a generic JSON value. -/
def doRequest (c : APIClient) (env : Env) (url method rawToken : String)
    (payload : Option Payload) : DoRequestResult :=
  let apiURL := c.BaseURL ++ url
  match serializeBody payload apiURL with
  | .error e => ⟨false, none, .error e⟩
  | .ok body =>
    if env.newRequestErr then
      ⟨false, none, .error ⟨apiURL, none, none, .requestCreationFailure⟩⟩
    else
      let request := builtRequest c env url method rawToken body
      match env.transport with
      | .doErr =>
        ⟨true, some request, .error ⟨apiURL, none, none, .transportFailure⟩⟩
      | .response resp =>
        if resp.statusCode > 300 then
          ⟨true, some request,
            .error ⟨apiURL, some resp.statusCode, some (failureBodyString resp),
              .nonSuccessStatus resp.statusCode⟩⟩
        else
          match decodeBody resp with
          | none =>
            ⟨true, some request,
              .error ⟨apiURL, some resp.statusCode, none, .decodeFailure⟩⟩
          | some v => ⟨true, some request, .ok v⟩

/-- The observable outcome of the typed entry point, which returns only an
error. -/
structure TypedRequestResult where
  constructed : Bool
  sentRequest : Option Request
  result : Except APICallError Unit

/-- Embedding of `DoRequestWithResponseParam` (APIClient.go lines 25-73):
identical to `doRequest` up to classification; on success it decodes into
the caller-supplied destination only when one was given (`out != nil`),
and otherwise returns nil without touching the body. -/
def DoRequestWithResponseParam (c : APIClient) (env : Env)
    (url method rawToken : String) (payload : Option Payload)
    (outPresent : Bool) : TypedRequestResult :=
  let apiURL := c.BaseURL ++ url
  match serializeBody payload apiURL with
  | .error e => ⟨false, none, .error e⟩
  | .ok body =>
    if env.newRequestErr then
      ⟨false, none, .error ⟨apiURL, none, none, .requestCreationFailure⟩⟩
    else
      let request := builtRequest c env url method rawToken body
      match env.transport with
      | .doErr =>
        ⟨true, some request, .error ⟨apiURL, none, none, .transportFailure⟩⟩
      | .response resp =>
        if resp.statusCode > 300 then
          ⟨true, some request,
            .error ⟨apiURL, some resp.statusCode, some (failureBodyString resp),
              .nonSuccessStatus resp.statusCode⟩⟩
        else
          if outPresent then
            if typedDecodeOk resp then ⟨true, some request, .ok ()⟩
            else
              ⟨true, some request,
                .error ⟨apiURL, some resp.statusCode, none, .decodeFailure⟩⟩
          else ⟨true, some request, .ok ()⟩

/-- Embedding of `DoGet` (lines 126-137): run the generic routine with GET
and no payload, then assert the decoded value is an object. -/
def DoGet (c : APIClient) (env : Env) (requestString rawToken : String) :
    Except ClientError (List (String × JSONValue)) :=
  match (doRequest c env requestString "GET" rawToken none).result with
  | .error e => .error (.api e)
  | .ok response =>
    match response with
    | .obj fields => .ok fields
    | _ => .error (.generic "Could not parse Json to map")

/-- The loop of `DoGetList` (lines 149-157): walk the decoded slice, keep
the elements that are objects, and fail at the first element that is
not. -/
def collectObjects : List JSONValue →
    Except ClientError (List (List (String × JSONValue)))
  | [] => .ok []
  | x :: rest =>
    match x with
    | .obj fields =>
      match collectObjects rest with
      | .ok tail => .ok (fields :: tail)
      | .error e => .error e
    | _ => .error (.generic "Could not parse Json to map")

/-- Embedding of `DoGetList` (lines 140-159): run the generic routine with
GET and no payload, assert the decoded value is an array, then assert each
element is an object. -/
def DoGetList (c : APIClient) (env : Env) (requestString rawToken : String) :
    Except ClientError (List (List (String × JSONValue))) :=
  match (doRequest c env requestString "GET" rawToken none).result with
  | .error e => .error (.api e)
  | .ok response =>
    match response with
    | .arr elems => collectObjects elems
    | _ => .error (.generic "Could not parse Json to map")

/-- Embedding of `DoPost` (lines 162-173): run the generic routine with
POST and the payload, then assert the decoded value is an object. -/
def DoPost (c : APIClient) (env : Env) (requestString rawToken : String)
    (payload : Option Payload) :
    Except ClientError (List (String × JSONValue)) :=
  match (doRequest c env requestString "POST" rawToken payload).result with
  | .error e => .error (.api e)
  | .ok response =>
    match response with
    | .obj fields => .ok fields
    | _ => .error (.generic "Could not parse Json to map")

/-- Embedding of `DoDelete` (lines 176-182): run the generic routine with
DELETE and the payload, discard the decoded value, and surface only the
error, if any. -/
def DoDelete (c : APIClient) (env : Env) (requestString rawToken : String)
    (payload : Option Payload) : Except ClientError Unit :=
  match (doRequest c env requestString "DELETE" rawToken payload).result with
  | .error e => .error (.api e)
  | .ok _ => .ok ()

/-! ## Characterization lemmas for the two request routines -/

/-- When the payload marshals, the serialization step yields the marshalled
body. -/
theorem serializeBody_eq_of_marshalOk (payload : Option Payload)
    (apiURL : String) (hm : marshalOk payload = true) :
    serializeBody payload apiURL = .ok (payload.bind marshalPayload) := by
  cases payload with
  | none => rfl
  | some p =>
    cases hmp : marshalPayload p with
    | none => simp [marshalOk, hmp] at hm
    | some b => simp [serializeBody, hmp, Option.bind]

/-- Under a successful serialization step, a working request construction
and a transport that yields a response, `doRequest` sends the built request
and its result is decided by the status classification and the body
decode. -/
theorem doRequest_response_eq (c : APIClient) (env : Env)
    (url method rawToken : String) (payload : Option Payload)
    (resp : HTTPResponse) (hm : marshalOk payload = true)
    (hreq : env.newRequestErr = false)
    (ht : env.transport = TransportResult.response resp) :
    doRequest c env url method rawToken payload =
      ⟨true,
        some (builtRequest c env url method rawToken
          (payload.bind marshalPayload)),
        if resp.statusCode > 300 then
          Except.error ⟨c.BaseURL ++ url, some resp.statusCode,
            some (failureBodyString resp),
            ErrCause.nonSuccessStatus resp.statusCode⟩
        else
          match decodeBody resp with
          | none => Except.error ⟨c.BaseURL ++ url, some resp.statusCode,
              none, ErrCause.decodeFailure⟩
          | some v => Except.ok v⟩ := by
  simp only [doRequest, serializeBody_eq_of_marshalOk payload _ hm, hreq, ht,
    Bool.false_eq_true, if_false]
  split
  · rfl
  · split <;> rfl

/-- Typed counterpart of `doRequest_response_eq` for
`DoRequestWithResponseParam`. -/
theorem typedRequest_response_eq (c : APIClient) (env : Env)
    (url method rawToken : String) (payload : Option Payload)
    (outPresent : Bool) (resp : HTTPResponse) (hm : marshalOk payload = true)
    (hreq : env.newRequestErr = false)
    (ht : env.transport = TransportResult.response resp) :
    DoRequestWithResponseParam c env url method rawToken payload outPresent =
      ⟨true,
        some (builtRequest c env url method rawToken
          (payload.bind marshalPayload)),
        if resp.statusCode > 300 then
          Except.error ⟨c.BaseURL ++ url, some resp.statusCode,
            some (failureBodyString resp),
            ErrCause.nonSuccessStatus resp.statusCode⟩
        else if outPresent then
          if typedDecodeOk resp then Except.ok ()
          else Except.error ⟨c.BaseURL ++ url, some resp.statusCode, none,
            ErrCause.decodeFailure⟩
        else Except.ok ()⟩ := by
  simp only [DoRequestWithResponseParam,
    serializeBody_eq_of_marshalOk payload _ hm, hreq, ht,
    Bool.false_eq_true, if_false]
  split
  · rfl
  · split
    · split <;> rfl
    · rfl

/-- The request `doRequest` passes to the transport, when it reaches it, is
the built request. -/
theorem doRequest_sent_none_or (c : APIClient) (env : Env)
    (url method rawToken : String) (payload : Option Payload) :
    (doRequest c env url method rawToken payload).sentRequest = none ∨
    (doRequest c env url method rawToken payload).sentRequest =
      some (builtRequest c env url method rawToken
        (payload.bind marshalPayload)) := by
  cases hb : serializeBody payload (c.BaseURL ++ url) with
  | error e => left; simp [doRequest, hb]
  | ok b =>
    have hbb : b = payload.bind marshalPayload := by
      cases payload with
      | none => simpa [serializeBody, Option.bind] using hb.symm
      | some p =>
        cases hmp : marshalPayload p with
        | none => simp [serializeBody, hmp] at hb
        | some x => simpa [serializeBody, hmp, Option.bind] using hb.symm
    subst hbb
    by_cases hreq : env.newRequestErr
    · left; simp [doRequest, hb, hreq]
    · cases ht : env.transport with
      | doErr => right; simp [doRequest, hb, hreq, ht]
      | response resp =>
        by_cases hs : resp.statusCode > 300
        · right; simp [doRequest, hb, hreq, ht, hs]
        · cases hd : decodeBody resp with
          | none => right; simp [doRequest, hb, hreq, ht, hs, hd]
          | some v => right; simp [doRequest, hb, hreq, ht, hs, hd]

/-- The request `DoRequestWithResponseParam` passes to the transport, when
it reaches it, is the built request. -/
theorem typedRequest_sent_none_or (c : APIClient) (env : Env)
    (url method rawToken : String) (payload : Option Payload)
    (outPresent : Bool) :
    (DoRequestWithResponseParam c env url method rawToken payload
      outPresent).sentRequest = none ∨
    (DoRequestWithResponseParam c env url method rawToken payload
      outPresent).sentRequest =
      some (builtRequest c env url method rawToken
        (payload.bind marshalPayload)) := by
  cases hb : serializeBody payload (c.BaseURL ++ url) with
  | error e => left; simp [DoRequestWithResponseParam, hb]
  | ok b =>
    have hbb : b = payload.bind marshalPayload := by
      cases payload with
      | none => simpa [serializeBody, Option.bind] using hb.symm
      | some p =>
        cases hmp : marshalPayload p with
        | none => simp [serializeBody, hmp] at hb
        | some x => simpa [serializeBody, hmp, Option.bind] using hb.symm
    subst hbb
    by_cases hreq : env.newRequestErr
    · left; simp [DoRequestWithResponseParam, hb, hreq]
    · cases ht : env.transport with
      | doErr => right; simp [DoRequestWithResponseParam, hb, hreq, ht]
      | response resp =>
        by_cases hs : resp.statusCode > 300
        · right; simp [DoRequestWithResponseParam, hb, hreq, ht, hs]
        · cases houtp : outPresent
          · right
            simp [DoRequestWithResponseParam, hb, hreq, ht, hs]
          · by_cases htd : typedDecodeOk resp <;> right <;>
              simp [DoRequestWithResponseParam, hb, hreq, ht, hs, htd]

/-! ## Claims -/

/-- C1: the spec says an HTTP failure (status strictly above 300) carries
the response body text read best-effort, empty only when the body read
itself fails; in particular a GET returning 404 with body `not found`
should yield an error with body `not found`.  The code inverts the
`ReadAll` error check (lines 59-62 / 109-112): the read bytes are kept
only when the read fails, so at this input — status 404, body bytes
`not found`, read succeeding — the returned error carries body `""`
instead of `not found`.  This theorem evaluates the code at that failing
input, exhibiting the divergence. -/
theorem C1_http_failure_body_dropped :
    DoGetList ⟨"app", "http://s"⟩
      ⟨"cid", false, .response ⟨404, "not found", false, none, false⟩⟩
      "/widgets" "" =
    .error (.api ⟨"http://s/widgets", some 404, some "",
      .nonSuccessStatus 404⟩) := rfl

/-- C2 counterexample: the claim says DeleteOne on a 204 response with an
empty body returns nil error with no decode attempted.  But `DoDelete`
delegates to `doRequest`, which always decodes the body on success, and
Go `json.Decode` on an empty stream fails with `io.EOF`; at this concrete
input the call returns an error, not nil. -/
theorem C2_counterexample :
    ¬ (DoDelete ⟨"app", "http://s"⟩
        ⟨"cid", false, .response ⟨204, "", false, none, false⟩⟩
        "/widgets/1" "" none = .ok ()) := fun h => nomatch h

/-- C2 amended: for every DELETE call whose response has status 204 and an
empty body, DeleteOne attempts to decode the body (the generic routine
always does), the decode fails on the empty stream, and the call returns a
structured decode-failure error with url and status set and body text
absent — not nil. -/
theorem C2_delete_empty_body_decode_error (c : APIClient) (env : Env)
    (url rawToken : String) (payload : Option Payload) (resp : HTTPResponse)
    (hm : marshalOk payload = true) (hreq : env.newRequestErr = false)
    (ht : env.transport = TransportResult.response resp)
    (hs : resp.statusCode = 204) (hbody : resp.bodyText = "") :
    DoDelete c env url rawToken payload =
      .error (.api ⟨c.BaseURL ++ url, some 204, none,
        .decodeFailure⟩) := by
  have h := doRequest_response_eq c env url "DELETE" rawToken payload resp
    hm hreq ht
  simp [DoDelete, h, hs, decodeBody, hbody]

/-- C2 witness: the amended claim at a concrete 204-with-empty-body
input. -/
theorem C2_delete_empty_body_witness :
    DoDelete ⟨"app", "http://s"⟩
      ⟨"cid", false, .response ⟨204, "", false, none, false⟩⟩
      "/widgets/1" "" none =
    .error (.api ⟨"http://s/widgets/1", some 204, none, .decodeFailure⟩) :=
  C2_delete_empty_body_decode_error _ _ _ _ _ _ rfl rfl rfl rfl rfl

/-- C3: for every response status in 100..300 the call is classified as
success and proceeds to the body decode (its result is exactly the decode
outcome, for both the generic and the typed routine), and for every status
in 301..599 it is classified as failure and returns the non-success
structured error; instantiating the first part at 300 shows that 300
itself is a success. -/
theorem C3_status_classification (c : APIClient) (env : Env)
    (url method rawToken : String) (payload : Option Payload)
    (outPresent : Bool) (resp : HTTPResponse)
    (hm : marshalOk payload = true) (hreq : env.newRequestErr = false)
    (ht : env.transport = TransportResult.response resp) :
    (100 ≤ resp.statusCode → resp.statusCode ≤ 300 →
      (doRequest c env url method rawToken payload).result =
        (match decodeBody resp with
         | none => .error ⟨c.BaseURL ++ url, some resp.statusCode, none,
             .decodeFailure⟩
         | some v => .ok v) ∧
      (DoRequestWithResponseParam c env url method rawToken payload
          outPresent).result =
        (if outPresent then
          (if typedDecodeOk resp then .ok ()
           else .error ⟨c.BaseURL ++ url, some resp.statusCode, none,
             .decodeFailure⟩)
         else .ok ())) ∧
    (301 ≤ resp.statusCode → resp.statusCode ≤ 599 →
      (doRequest c env url method rawToken payload).result =
        .error ⟨c.BaseURL ++ url, some resp.statusCode,
          some (failureBodyString resp),
          .nonSuccessStatus resp.statusCode⟩ ∧
      (DoRequestWithResponseParam c env url method rawToken payload
          outPresent).result =
        .error ⟨c.BaseURL ++ url, some resp.statusCode,
          some (failureBodyString resp),
          .nonSuccessStatus resp.statusCode⟩) := by
  have h1 := doRequest_response_eq c env url method rawToken payload resp
    hm hreq ht
  have h2 := typedRequest_response_eq c env url method rawToken payload
    outPresent resp hm hreq ht
  constructor
  · intro _ hle
    have hgt : ¬ (resp.statusCode > 300) := by omega
    constructor
    · simp [h1, hgt]
    · simp [h2, hgt]
  · intro hge _
    have hgt : resp.statusCode > 300 := by omega
    constructor
    · simp [h1, hgt]
    · simp [h2, hgt]

/-- C3 witness: status 300 (the boundary) is classified as success and its
result is the decoded object, while status 301 is classified as failure
and returns the non-success error, at concrete inputs. -/
theorem C3_status_witness :
    (doRequest ⟨"app", "http://s"⟩
      ⟨"cid", false, .response ⟨300, "x", false, some (.obj []), true⟩⟩
      "/w" "GET" "" none).result = .ok (.obj []) ∧
    (doRequest ⟨"app", "http://s"⟩
      ⟨"cid", false, .response ⟨301, "moved", false, none, false⟩⟩
      "/w" "GET" "" none).result =
      .error ⟨"http://s/w", some 301, some "", .nonSuccessStatus 301⟩ :=
  ⟨((C3_status_classification ⟨"app", "http://s"⟩
      ⟨"cid", false, .response ⟨300, "x", false, some (.obj []), true⟩⟩
      "/w" "GET" "" none false ⟨300, "x", false, some (.obj []), true⟩
      rfl rfl rfl).1 (by decide) (by decide)).1,
   ((C3_status_classification ⟨"app", "http://s"⟩
      ⟨"cid", false, .response ⟨301, "moved", false, none, false⟩⟩
      "/w" "GET" "" none false ⟨301, "moved", false, none, false⟩
      rfl rfl rfl).2 (by decide) (by decide)).1⟩

/-- C4: whenever a request is sent (by the generic or the typed routine),
its Authorization header is absent for an empty token, equals the token
unchanged when the token starts with the prefix `Bearer`, and equals
`Bearer ` prepended to the token otherwise. -/
theorem C4_authorization_header (c : APIClient) (env : Env)
    (url method rawToken : String) (payload : Option Payload)
    (outPresent : Bool) (req treq : Request)
    (h1 : (doRequest c env url method rawToken payload).sentRequest =
      some req)
    (h2 : (DoRequestWithResponseParam c env url method rawToken payload
      outPresent).sentRequest = some treq) :
    (rawToken = "" →
      req.authorization = none ∧ treq.authorization = none) ∧
    (rawToken ≠ "" → strStartsWith rawToken "Bearer" = true →
      req.authorization = some rawToken ∧
      treq.authorization = some rawToken) ∧
    (rawToken ≠ "" → strStartsWith rawToken "Bearer" = false →
      req.authorization = some ("Bearer " ++ rawToken) ∧
      treq.authorization = some ("Bearer " ++ rawToken)) := by
  have hr : req.authorization = authHeader rawToken := by
    rcases doRequest_sent_none_or c env url method rawToken payload with
      h | h
    · rw [h1] at h; exact absurd h (by simp)
    · rw [h1] at h
      have : req = builtRequest c env url method rawToken
          (payload.bind marshalPayload) := by
        exact Option.some_injective _ h
      rw [this]; rfl
  have htr : treq.authorization = authHeader rawToken := by
    rcases typedRequest_sent_none_or c env url method rawToken payload
      outPresent with h | h
    · rw [h2] at h; exact absurd h (by simp)
    · rw [h2] at h
      have : treq = builtRequest c env url method rawToken
          (payload.bind marshalPayload) := by
        exact Option.some_injective _ h
      rw [this]; rfl
  refine ⟨fun he => ?_, fun hne hbp => ?_, fun hne hbp => ?_⟩
  · rw [hr, htr]; simp [authHeader, he]
  · rw [hr, htr]; simp [authHeader, hne, hbp]
  · rw [hr, htr]; simp [authHeader, hne, hbp]

/-- C4 witness: the three token shapes at concrete requests — empty token
sends no Authorization header, a token already starting with `Bearer` is
sent unchanged, and any other token gets `Bearer ` prepended. -/
theorem C4_authorization_witness :
    ((doRequest ⟨"app", "http://s"⟩
        ⟨"cid", false, .response ⟨200, "x", false, some (.obj []), true⟩⟩
        "/w" "GET" "" none).sentRequest =
      some ⟨"GET", "http://s/w", none, "app", "cid", "application/json",
        none⟩ ∧
      (none : Option String) = none) ∧
    ((doRequest ⟨"app", "http://s"⟩
        ⟨"cid", false, .response ⟨200, "x", false, some (.obj []), true⟩⟩
        "/w" "GET" "Bearer xyz" none).sentRequest =
      some ⟨"GET", "http://s/w", some "Bearer xyz", "app", "cid",
        "application/json", none⟩ ∧
      (Request.mk "GET" "http://s/w" (some "Bearer xyz") "app" "cid"
        "application/json" none).authorization = some "Bearer xyz") ∧
    ((doRequest ⟨"app", "http://s"⟩
        ⟨"cid", false, .response ⟨200, "x", false, some (.obj []), true⟩⟩
        "/w" "GET" "tok" none).sentRequest =
      some ⟨"GET", "http://s/w", some "Bearer tok", "app", "cid",
        "application/json", none⟩ ∧
      (Request.mk "GET" "http://s/w" (some "Bearer tok") "app" "cid"
        "application/json" none).authorization =
        some ("Bearer " ++ "tok")) :=
  ⟨⟨rfl, ((C4_authorization_header ⟨"app", "http://s"⟩
      ⟨"cid", false, .response ⟨200, "x", false, some (.obj []), true⟩⟩
      "/w" "GET" "" none false _ _ rfl rfl).1 rfl).1⟩,
   ⟨rfl, ((C4_authorization_header ⟨"app", "http://s"⟩
      ⟨"cid", false, .response ⟨200, "x", false, some (.obj []), true⟩⟩
      "/w" "GET" "Bearer xyz" none false _ _ rfl rfl).2.1
        (by decide) (by decide)).1⟩,
   ⟨rfl, ((C4_authorization_header ⟨"app", "http://s"⟩
      ⟨"cid", false, .response ⟨200, "x", false, some (.obj []), true⟩⟩
      "/w" "GET" "tok" none false _ _ rfl rfl).2.2
        (by decide) (by decide)).1⟩⟩

/-- C5: when the payload's JSON serialization fails, both routines return
immediately — no request is constructed and none is sent — with a
structured error in which the URL is set and status code and body text are
both absent. -/
theorem C5_marshal_failure (c : APIClient) (env : Env)
    (url method rawToken : String) (p : Payload) (outPresent : Bool)
    (hm : marshalPayload p = none) :
    doRequest c env url method rawToken (some p) =
      ⟨false, none, .error ⟨c.BaseURL ++ url, none, none,
        .marshalFailure⟩⟩ ∧
    DoRequestWithResponseParam c env url method rawToken (some p)
        outPresent =
      ⟨false, none, .error ⟨c.BaseURL ++ url, none, none,
        .marshalFailure⟩⟩ := by
  constructor
  · simp [doRequest, serializeBody, hm]
  · simp [DoRequestWithResponseParam, serializeBody, hm]

/-- C5 witness: the serialization-failure behavior at a concrete
unmarshalable payload. -/
theorem C5_marshal_failure_witness :
    doRequest ⟨"app", "http://s"⟩ ⟨"cid", false, .doErr⟩ "/w" "POST" ""
        (some .unmarshalable) =
      ⟨false, none, .error ⟨"http://s/w", none, none, .marshalFailure⟩⟩ :=
  (C5_marshal_failure ⟨"app", "http://s"⟩ ⟨"cid", false, .doErr⟩ "/w"
    "POST" "" .unmarshalable false rfl).1

/-- The element loop of `DoGetList` fails with the shape error whenever
some element of the decoded slice is not an object. -/
theorem collectObjects_error_of_mem (elems : List JSONValue)
    (x : JSONValue) (hx : x ∈ elems) (hobj : x.isObj = false) :
    collectObjects elems =
      .error (.generic "Could not parse Json to map") := by
  induction elems with
  | nil => cases hx
  | cons y rest ih =>
    cases hx with
    | head =>
      cases x <;> first
        | rfl
        | simp [JSONValue.isObj] at hobj
    | tail _ hmem =>
      cases y <;> first
        | rfl
        | simp [collectObjects, ih hmem]

/-- C6: whenever the generic GET call succeeds with a decoded JSON array
containing at least one non-object element, `DoGetList` returns the
shape-mismatch error and no partial result. -/
theorem C6_getlist_non_object_element (c : APIClient) (env : Env)
    (url rawToken : String) (elems : List JSONValue) (x : JSONValue)
    (hok : (doRequest c env url "GET" rawToken none).result =
      .ok (.arr elems))
    (hx : x ∈ elems) (hobj : x.isObj = false) :
    DoGetList c env url rawToken =
      .error (.generic "Could not parse Json to map") := by
  simp [DoGetList, hok, collectObjects_error_of_mem elems x hx hobj]

/-- C6 witness: the list body with one trailing non-object element from
the spec example. -/
theorem C6_getlist_witness :
    DoGetList ⟨"app", "http://s"⟩
      ⟨"cid", false, .response ⟨200, "[\x7b\x22a\x22:1\x7d,2]", false,
        some (.arr [.obj [("a", .num 1)], .num 2]), true⟩⟩
      "/widgets" "" =
    .error (.generic "Could not parse Json to map") :=
  C6_getlist_non_object_element ⟨"app", "http://s"⟩
    ⟨"cid", false, .response ⟨200, "[\x7b\x22a\x22:1\x7d,2]", false,
      some (.arr [.obj [("a", .num 1)], .num 2]), true⟩⟩
    "/widgets" "" [.obj [("a", .num 1)], .num 2] (.num 2) rfl
    (List.Mem.tail _ (List.Mem.head _)) rfl

/-- C7: whenever the generic call succeeds with a decoded JSON value that
is not an object (an array or a scalar), `DoGet` and `DoPost` return the
shape-mismatch error and no result. -/
theorem C7_get_post_non_object (c : APIClient) (envG envP : Env)
    (urlG urlP tokenG tokenP : String) (payload : Option Payload)
    (vG vP : JSONValue)
    (hG : (doRequest c envG urlG "GET" tokenG none).result = .ok vG)
    (hP : (doRequest c envP urlP "POST" tokenP payload).result = .ok vP)
    (hGobj : vG.isObj = false) (hPobj : vP.isObj = false) :
    DoGet c envG urlG tokenG =
      .error (.generic "Could not parse Json to map") ∧
    DoPost c envP urlP tokenP payload =
      .error (.generic "Could not parse Json to map") := by
  constructor
  · simp only [DoGet, hG]
    cases vG <;> first
      | rfl
      | simp [JSONValue.isObj] at hGobj
  · simp only [DoPost, hP]
    cases vP <;> first
      | rfl
      | simp [JSONValue.isObj] at hPobj

/-- C7 witness: a GET whose body decodes to a JSON array and a POST whose
body decodes to a scalar both fail with the shape-mismatch error. -/
theorem C7_get_post_witness :
    DoGet ⟨"app", "http://s"⟩
      ⟨"cid", false, .response ⟨200, "[]", false, some (.arr []), true⟩⟩
      "/w" "" =
    .error (.generic "Could not parse Json to map") ∧
    DoPost ⟨"app", "http://s"⟩
      ⟨"cid", false, .response ⟨201, "3", false, some (.num 3), true⟩⟩
      "/w" "" (some (.json [("name", .str "y")])) =
    .error (.generic "Could not parse Json to map") :=
  C7_get_post_non_object ⟨"app", "http://s"⟩
    ⟨"cid", false, .response ⟨200, "[]", false, some (.arr []), true⟩⟩
    ⟨"cid", false, .response ⟨201, "3", false, some (.num 3), true⟩⟩
    "/w" "/w" "" "" (some (.json [("name", .str "y")]))
    (.arr []) (.num 3) rfl rfl rfl rfl

/-- C8: on a response with status at most 300 whose body does not decode —
as generic JSON for the untyped routine, or into the caller's destination
for the typed routine — the call returns a structured error with the URL
and status code set and the body text absent. -/
theorem C8_decode_failure (c : APIClient) (env : Env)
    (url method rawToken : String) (payload : Option Payload)
    (resp : HTTPResponse) (hm : marshalOk payload = true)
    (hreq : env.newRequestErr = false)
    (ht : env.transport = TransportResult.response resp)
    (hs : resp.statusCode ≤ 300) :
    (decodeBody resp = none →
      (doRequest c env url method rawToken payload).result =
        .error ⟨c.BaseURL ++ url, some resp.statusCode, none,
          .decodeFailure⟩) ∧
    (typedDecodeOk resp = false →
      (DoRequestWithResponseParam c env url method rawToken payload
          true).result =
        .error ⟨c.BaseURL ++ url, some resp.statusCode, none,
          .decodeFailure⟩) := by
  have hgt : ¬ (resp.statusCode > 300) := by omega
  have h1 := doRequest_response_eq c env url method rawToken payload resp
    hm hreq ht
  have h2 := typedRequest_response_eq c env url method rawToken payload
    true resp hm hreq ht
  constructor
  · intro hd; simp [h1, hgt, hd]
  · intro hd; simp [h2, hgt, hd]

/-- C8 witness: a status-200 response whose body is not valid JSON fails
with url and status set and body text absent, on both routines. -/
theorem C8_decode_failure_witness :
    (doRequest ⟨"app", "http://s"⟩
      ⟨"cid", false, .response ⟨200, "oops", false, none, false⟩⟩
      "/w" "GET" "" none).result =
      .error ⟨"http://s/w", some 200, none, .decodeFailure⟩ ∧
    (DoRequestWithResponseParam ⟨"app", "http://s"⟩
      ⟨"cid", false, .response ⟨200, "oops", false, none, false⟩⟩
      "/w" "GET" "" none true).result =
      .error ⟨"http://s/w", some 200, none, .decodeFailure⟩ :=
  ⟨(C8_decode_failure ⟨"app", "http://s"⟩
      ⟨"cid", false, .response ⟨200, "oops", false, none, false⟩⟩
      "/w" "GET" "" none ⟨200, "oops", false, none, false⟩
      rfl rfl rfl (by decide)).1 rfl,
   (C8_decode_failure ⟨"app", "http://s"⟩
      ⟨"cid", false, .response ⟨200, "oops", false, none, false⟩⟩
      "/w" "GET" "" none ⟨200, "oops", false, none, false⟩
      rfl rfl rfl (by decide)).2 rfl⟩

/-- C9: a call to the typed routine with no destination (`out = nil`)
whose response has status at most 300 returns nil error without decoding,
whatever the body content and whatever the decoder would say about it. -/
theorem C9_nil_out_skips_decode (c : APIClient) (env : Env)
    (url method rawToken : String) (payload : Option Payload)
    (resp : HTTPResponse) (hm : marshalOk payload = true)
    (hreq : env.newRequestErr = false)
    (ht : env.transport = TransportResult.response resp)
    (hs : resp.statusCode ≤ 300) :
    (DoRequestWithResponseParam c env url method rawToken payload
        false).result = .ok () := by
  have hgt : ¬ (resp.statusCode > 300) := by omega
  have h := typedRequest_response_eq c env url method rawToken payload
    false resp hm hreq ht
  simp [h, hgt]

/-- C9 witness: a status-200 response whose body would not decode still
yields nil error when no destination is supplied. -/
theorem C9_nil_out_witness :
    (DoRequestWithResponseParam ⟨"app", "http://s"⟩
      ⟨"cid", false, .response ⟨200, "garbage", false, none, false⟩⟩
      "/w" "GET" "" none false).result = .ok () :=
  C9_nil_out_skips_decode ⟨"app", "http://s"⟩
    ⟨"cid", false, .response ⟨200, "garbage", false, none, false⟩⟩
    "/w" "GET" "" none ⟨200, "garbage", false, none, false⟩
    rfl rfl rfl (by decide)

/-- C10: whenever the generic GET call succeeds with a decoded JSON value
that is the empty array, `DoGetList` returns nil error and the empty
slice. -/
theorem C10_getlist_empty_array (c : APIClient) (env : Env)
    (url rawToken : String)
    (hok : (doRequest c env url "GET" rawToken none).result =
      .ok (.arr [])) :
    DoGetList c env url rawToken = .ok [] := by
  simp [DoGetList, hok, collectObjects]

/-- C10 witness: a status-200 response with body `[]` yields the empty
slice and nil error. -/
theorem C10_getlist_empty_witness :
    DoGetList ⟨"app", "http://s"⟩
      ⟨"cid", false, .response ⟨200, "[]", false, some (.arr []), true⟩⟩
      "/widgets" "" = .ok [] :=
  C10_getlist_empty_array ⟨"app", "http://s"⟩
    ⟨"cid", false, .response ⟨200, "[]", false, some (.arr []), true⟩⟩
    "/widgets" "" rfl

end Microapp
